import Mathlib

/-! creo2urdf: geometry resolution (`src/creo2urdf/src/Utils.cpp`)

A shallow embedding of the helpers of `Utils.cpp` that turn Creo datums
(coordinate systems, axes) into iDynTree transforms and directions, and the
properties of the specification that hold (or fail) on them.

Conventions of the embedding:

* `double` is an arbitrary linearly ordered field `K`; the theorems about
  magnitudes instantiate it with `ℝ`.  The square root (`sqrt` of `<cmath>`)
  and the tolerance `epsilon` (declared in `Utils.h`) are parameters.
* The Creo object model is data: a `pfcModel` carries its full name and, per
  item type, the list that `ListItems` returns.
* The message window is an append-only list of `(message, level)` pairs that
  is threaded through every function that can print.
* A dereference of a null handle is the fault `Fault.nullHandle`.
* The files of the host are byte sequences by path; `sanitizeSTL` is a function
  from one such state to the next.
-/

namespace Creo2Urdf

/-! ## Creo (pfc / wfc) object model -/

/-- A `pfcPoint3D`: `get(0)`, `get(1)`, `get(2)`. -/
structure pfcPoint3D (K : Type) where
  get0 : K
  get1 : K
  get2 : K
deriving DecidableEq

/-- The part of a `pfcMatrix3D` that the code reads: `getIJ` is `get(I, J)` for
`I, J` in `0..2`. -/
structure pfcMatrix3D (K : Type) where
  get00 : K
  get01 : K
  get02 : K
  get10 : K
  get11 : K
  get12 : K
  get20 : K
  get21 : K
  get22 : K
deriving DecidableEq

/-- A `pfcTransform3D` with its two accessors. -/
structure pfcTransform3D (K : Type) where
  GetOrigin : pfcPoint3D K
  GetMatrix : pfcMatrix3D K
deriving DecidableEq

/-- A `pfcLineDescriptor`, the curve descriptor of an axis datum. -/
structure pfcLineDescriptor (K : Type) where
  GetEnd1 : pfcPoint3D K
  GetEnd2 : pfcPoint3D K
deriving DecidableEq

/-- A coordinate-system item of a model. -/
structure pfcCoordSystem (K : Type) where
  GetName : String
  GetCoordSys : pfcTransform3D K
deriving DecidableEq

/-- An axis item of a model; `GetAxisData` is already seen as the line
descriptor that the code casts it to. -/
structure pfcAxis (K : Type) where
  GetName : String
  GetAxisData : pfcLineDescriptor K
deriving DecidableEq

/-- A `pfcModel` (or `pfcSolid`): its full name and the result of `ListItems`
for the two item types the code asks for. -/
structure pfcModel (K : Type) where
  GetFullName : String
  ListItems_COORD_SYS : List (pfcCoordSystem K)
  ListItems_AXIS : List (pfcAxis K)
deriving DecidableEq

/-- The item types that the code passes to `ListItems`. -/
inductive pfcModelItemType where
  | pfcITEM_COORD_SYS
  | pfcITEM_AXIS
deriving DecidableEq

/-- A `pfcModelItem` as `ListItems` returns it, before any cast. -/
inductive pfcModelItem (K : Type) where
  | coordSystem (item : pfcCoordSystem K)
  | axis (item : pfcAxis K)

/-- The accessor `GetName` of a model item. -/
def pfcModelItem.GetName {K : Type} : pfcModelItem K → String
  | pfcModelItem.coordSystem item => item.GetName
  | pfcModelItem.axis item => item.GetName

/-- The method `ListItems(type)` of a model. -/
def pfcModel.ListItems {K : Type} (model : pfcModel K) :
    pfcModelItemType → List (pfcModelItem K)
  | pfcModelItemType.pfcITEM_COORD_SYS => model.ListItems_COORD_SYS.map pfcModelItem.coordSystem
  | pfcModelItemType.pfcITEM_AXIS => model.ListItems_AXIS.map pfcModelItem.axis

/-- A `pfcComponentPath`; the argument of `GetTransform` is its `bottomUp`
flag. -/
structure pfcComponentPath (K : Type) where
  GetTransform : Bool → pfcTransform3D K

/-- The value of `std::array<double, 3>`. -/
structure Array3 (K : Type) where
  at0 : K
  at1 : K
  at2 : K
deriving DecidableEq

/-! ## Message window -/

/-- Log levels of `printToMessageWindow`. -/
inductive c2uLogLevel where
  | NONE
  | INFO
  | WARN
  | PROMPT
deriving DecidableEq

/-- The messages displayed so far, oldest first. -/
abbrev MessageWindow := List (String × c2uLogLevel)

/-- The function `printToMessageWindow`: one message is displayed with its level. -/
def printToMessageWindow (message : String) (log_level : c2uLogLevel)
    (window : MessageWindow) : MessageWindow :=
  window ++ [(message, log_level)]

/-- The warnings among the displayed messages. -/
def warnings (window : MessageWindow) : List (String × c2uLogLevel) :=
  window.filter (fun entry => entry.2 = c2uLogLevel.WARN)

/-- Run-time faults of the C++ code. -/
inductive Fault where
  | nullHandle
deriving DecidableEq

end Creo2Urdf

/-! ## iDynTree values -/

namespace iDynTree

/-- Modelled from the spec: the position of an `iDynTree::Transform`, three
components (the iDynTree library is not part of the repository). -/
structure Position (K : Type) where
  x : K
  y : K
  z : K
deriving DecidableEq

/-- Modelled from the spec: an `iDynTree::Rotation`, a 3×3 matrix whose
constructor takes the nine entries in row-major order. -/
structure Rotation (K : Type) where
  xx : K
  xy : K
  xz : K
  yx : K
  yy : K
  yz : K
  zx : K
  zy : K
  zz : K
deriving DecidableEq

/-- Modelled from the spec: an `iDynTree::Direction`, three components. -/
structure Direction (K : Type) where
  x : K
  y : K
  z : K
deriving DecidableEq

/-- Modelled from the spec: an `iDynTree::Transform`, position plus rotation. -/
structure Transform (K : Type) where
  pos : Position K
  rot : Rotation K
deriving DecidableEq

variable {K : Type} [LinearOrderedField K]

/-- Modelled from the spec: the identity rotation. -/
def Rotation.Identity : Rotation K :=
  ⟨1, 0, 0, 0, 1, 0, 0, 0, 1⟩

/-- Modelled from the spec: the identity transform (zero position, identity
rotation). -/
def Transform.Identity : Transform K :=
  ⟨⟨0, 0, 0⟩, Rotation.Identity⟩

/-- Modelled from the spec: product of two rotations. -/
def Rotation.mul (a b : Rotation K) : Rotation K :=
  ⟨a.xx * b.xx + a.xy * b.yx + a.xz * b.zx,
   a.xx * b.xy + a.xy * b.yy + a.xz * b.zy,
   a.xx * b.xz + a.xy * b.yz + a.xz * b.zz,
   a.yx * b.xx + a.yy * b.yx + a.yz * b.zx,
   a.yx * b.xy + a.yy * b.yy + a.yz * b.zy,
   a.yx * b.xz + a.yy * b.yz + a.yz * b.zz,
   a.zx * b.xx + a.zy * b.yx + a.zz * b.zx,
   a.zx * b.xy + a.zy * b.yy + a.zz * b.zy,
   a.zx * b.xz + a.zy * b.yz + a.zz * b.zz⟩

/-- Modelled from the spec: a rotation applied to a position. -/
def Rotation.mulPosition (a : Rotation K) (p : Position K) : Position K :=
  ⟨a.xx * p.x + a.xy * p.y + a.xz * p.z,
   a.yx * p.x + a.yy * p.y + a.yz * p.z,
   a.zx * p.x + a.zy * p.y + a.zz * p.z⟩

/-- Modelled from the spec: a rotation applied to a direction. -/
def Rotation.mulDirection (a : Rotation K) (d : Direction K) : Direction K :=
  ⟨a.xx * d.x + a.xy * d.y + a.xz * d.z,
   a.yx * d.x + a.yy * d.y + a.yz * d.z,
   a.zx * d.x + a.zy * d.y + a.zz * d.z⟩

/-- Modelled from the spec: the transpose, which inverts a proper rotation. -/
def Rotation.inverse (a : Rotation K) : Rotation K :=
  ⟨a.xx, a.yx, a.zx, a.xy, a.yy, a.zy, a.xz, a.yz, a.zz⟩

/-- Modelled from the spec: sum of two positions. -/
def Position.add (p q : Position K) : Position K :=
  ⟨p.x + q.x, p.y + q.y, p.z + q.z⟩

/-- Modelled from the spec: the opposite position. -/
def Position.neg (p : Position K) : Position K :=
  ⟨-p.x, -p.y, -p.z⟩

/-- Modelled from the spec: composition `a * b` of two transforms, with
rotation `R_a · R_b` and position `R_a · p_b + p_a`. -/
def Transform.mul (a b : Transform K) : Transform K :=
  ⟨(a.rot.mulPosition b.pos).add a.pos, a.rot.mul b.rot⟩

/-- Modelled from the spec: the inverse `(Rᵗ, −Rᵗ p)` of a transform. -/
def Transform.inverse (a : Transform K) : Transform K :=
  ⟨(a.rot.inverse.mulPosition a.pos).neg, a.rot.inverse⟩

/-- Modelled from the spec: `transform * direction`; a direction is a free
vector, so only the rotation acts on it. -/
def Transform.mulDirection (a : Transform K) (d : Direction K) : Direction K :=
  a.rot.mulDirection d

/-- Modelled from the spec: `Direction::zero()`. -/
def Direction.zero : Direction K :=
  ⟨0, 0, 0⟩

/-- Modelled from the spec: `Direction::Normalize()`, the ε-guarded
normalization of §4.1: below the tolerance the zero vector, otherwise the
vector divided by its magnitude. -/
def Direction.Normalize (sqrt : K → K) (epsilon : K) (d : Direction K) : Direction K :=
  let norm := sqrt (d.x ^ 2 + d.y ^ 2 + d.z ^ 2)
  if norm < epsilon then Direction.zero
  else ⟨d.x / norm, d.y / norm, d.z / norm⟩

end iDynTree

namespace Creo2Urdf

variable {K : Type} [LinearOrderedField K]

/-! ## The functions of `Utils.cpp` -/

/-- The function `computeUnitVectorFromAxis` (lines 18-42), with the division
operator of `double` as the parameter `div`. -/
def computeUnitVectorFromAxisWith (div : K → K → K) (sqrt : K → K) (epsilon : K)
    (axis_data : pfcLineDescriptor K) : Array3 K :=
  let axis_line := axis_data
  let pstart := axis_line.GetEnd1
  let pend := axis_line.GetEnd2
  let unit_vector : Array3 K := ⟨0, 0, 0⟩
  let module := sqrt ((pend.get0 - pstart.get0) ^ 2 +
    (pend.get1 - pstart.get1) ^ 2 +
    (pend.get2 - pstart.get2) ^ 2)
  if module < epsilon then
    unit_vector
  else
    ⟨div (pend.get0 - pstart.get0) module,
     div (pend.get1 - pstart.get1) module,
     div (pend.get2 - pstart.get2) module⟩

/-- The function `computeUnitVectorFromAxis` (lines 18-42) with the division
of the field. -/
def computeUnitVectorFromAxis (sqrt : K → K) (epsilon : K)
    (axis_data : pfcLineDescriptor K) : Array3 K :=
  computeUnitVectorFromAxisWith (fun a b => a / b) sqrt epsilon axis_data

/-- The function `fromCreo` (lines 52-63): the origin is scaled component-wise,
the rotation constructor receives `m(0,0), m(1,0), m(2,0), m(0,1), ...`. -/
def fromCreo (creo_trf : pfcTransform3D K) (scale : Array3 K) : iDynTree.Transform K :=
  let o := creo_trf.GetOrigin
  let m := creo_trf.GetMatrix
  { pos := ⟨o.get0 * scale.at0, o.get1 * scale.at1, o.get2 * scale.at2⟩
    rot := ⟨m.get00, m.get10, m.get20,
            m.get01, m.get11, m.get21,
            m.get02, m.get12, m.get22⟩ }

/-- The `for` loop of `getTransformFromPart` (lines 196-225): `some H` when the
loop returns from inside its body, `none` when it runs to the end. -/
def getTransformFromPart.scan (link_frame_name : String) (scale : Array3 K) :
    List (pfcCoordSystem K) → Option (iDynTree.Transform K)
  | [] => none
  | csys :: rest =>
    if csys.GetName ≠ link_frame_name then
      getTransformFromPart.scan link_frame_name scale rest
    else
      some (fromCreo csys.GetCoordSys scale)

/-- The function `getTransformFromPart` (lines 181-228).  `H_child` is declared
without an initializer, so it starts as `uninitialized`, the value that the
default constructor of `iDynTree::Transform` leaves in it. -/
def getTransformFromPart (uninitialized : iDynTree.Transform K) (modelhdl : pfcModel K)
    (link_frame_name : String) (scale : Array3 K) (window : MessageWindow) :
    (Bool × iDynTree.Transform K) × MessageWindow :=
  let H_child := uninitialized
  let csys_list := modelhdl.ListItems_COORD_SYS
  let link_child_name := modelhdl.GetFullName
  if csys_list.length = 0 then
    let window := printToMessageWindow ("There are no CSYS in the part " ++ link_child_name)
      c2uLogLevel.WARN window
    let H_child : iDynTree.Transform K := iDynTree.Transform.Identity
    ((false, H_child), window)
  else
    match getTransformFromPart.scan link_frame_name scale csys_list with
    | some H_child => ((true, H_child), window)
    | none => ((false, H_child), window)

/-- The function `getTransformFromRootToChild` (lines 151-171). -/
def getTransformFromRootToChild (uninitialized : iDynTree.Transform K)
    (comp_path : pfcComponentPath K) (modelhdl : pfcModel K) (link_frame_name : String)
    (scale : Array3 K) (window : MessageWindow) :
    (Bool × iDynTree.Transform K) × MessageWindow :=
  let H_child : iDynTree.Transform K := iDynTree.Transform.Identity
  let asm_csys_H_csys := fromCreo (comp_path.GetTransform true) scale
  let res := getTransformFromPart uninitialized modelhdl link_frame_name scale window
  let ret := res.1.1
  let csys_H_child := res.1.2
  let window := res.2
  if !ret then
    let window := printToMessageWindow
      ("Unable to get the transform from to the root for " ++ modelhdl.GetFullName)
      c2uLogLevel.WARN window
    ((false, H_child), window)
  else
    let H_child := asm_csys_H_csys.mul csys_H_child
    ((true, H_child), window)

/-- The `for` loop of `getAxisFromPart` (lines 254-263): `axis` starts as the
null pointer (`none`) and is overwritten at every item whose name matches. -/
def getAxisFromPart.scan (axis_name : String) (axes_list : List (pfcAxis K)) :
    Option (pfcAxis K) :=
  axes_list.foldl
    (fun axis axis_elem => if axis_elem.GetName = axis_name then some axis_elem else axis)
    none

/-- The function `getAxisFromPart` (lines 239-281).  Line 265 dereferences `axis`,
which is still the null pointer when no item matched. -/
def getAxisFromPart (sqrt : K → K) (epsilon : K) (uninitialized : iDynTree.Transform K)
    (modelhdl : pfcModel K) (axis_name link_frame_name : String) (scale : Array3 K)
    (window : MessageWindow) :
    Except Fault ((Bool × iDynTree.Direction K) × MessageWindow) :=
  let axis_unit_vector : iDynTree.Direction K := iDynTree.Direction.zero
  let axes_list := modelhdl.ListItems_AXIS
  if axes_list.length = 0 then
    let window := printToMessageWindow ("There is no AXIS in the part " ++ modelhdl.GetFullName)
      c2uLogLevel.WARN window
    Except.ok ((false, axis_unit_vector), window)
  else if axis_name.isEmpty then
    Except.ok ((false, axis_unit_vector), window)
  else
    match getAxisFromPart.scan axis_name axes_list with
    | none => Except.error Fault.nullHandle
    | some axis =>
      let axis_line := axis.GetAxisData
      let unit := computeUnitVectorFromAxis sqrt epsilon axis_line
      let axis_unit_vector : iDynTree.Direction K := ⟨unit.at0, unit.at1, unit.at2⟩
      let res := getTransformFromPart uninitialized modelhdl link_frame_name scale window
      let csys_H_child := res.1.2
      let window := res.2
      let axis_unit_vector := csys_H_child.inverse.mulDirection axis_unit_vector
      let axis_unit_vector := axis_unit_vector.Normalize sqrt epsilon
      Except.ok ((true, axis_unit_vector), window)

/-- The function `getSolidDatumNames` (lines 65-87). -/
def getSolidDatumNames (solid : pfcModel K) (type : pfcModelItemType)
    (window : MessageWindow) : List String × MessageWindow :=
  let result : List String := []
  let items := solid.ListItems type
  if items.length = 0 then
    let window := printToMessageWindow ("There is no axis in " ++ solid.GetFullName)
      c2uLogLevel.WARN window
    (result, window)
  else
    (items.foldl (fun result item => result ++ [item.GetName]) result, window)

/-- The messages of `after` that follow the first `before.length` ones. -/
def appended (before after : MessageWindow) : MessageWindow :=
  after.drop before.length

/-- Between `before` and `after` the window only grew, and exactly `n` of the
new messages are warnings. -/
def AppendsWarnings (n : Nat) (before after : MessageWindow) : Prop :=
  before <+: after ∧ (warnings (appended before after)).length = n

instance (n : Nat) (before after : MessageWindow) :
    Decidable (AppendsWarnings n before after) := by
  unfold AppendsWarnings
  infer_instance

end Creo2Urdf

/-! ## Further definitions: matrix accessors, files -/

namespace iDynTree

/-- Modelled from the spec: the entry of a rotation at row `r` and column `c`,
the nine arguments of the constructor being read in row-major order. -/
def Rotation.getVal {K : Type} (a : Rotation K) (r c : Fin 3) : K :=
  match r, c with
  | ⟨0, _⟩, ⟨0, _⟩ => a.xx
  | ⟨0, _⟩, ⟨1, _⟩ => a.xy
  | ⟨0, _⟩, ⟨_ + 2, _⟩ => a.xz
  | ⟨1, _⟩, ⟨0, _⟩ => a.yx
  | ⟨1, _⟩, ⟨1, _⟩ => a.yy
  | ⟨1, _⟩, ⟨_ + 2, _⟩ => a.yz
  | ⟨_ + 2, _⟩, ⟨0, _⟩ => a.zx
  | ⟨_ + 2, _⟩, ⟨1, _⟩ => a.zy
  | ⟨_ + 2, _⟩, ⟨_ + 2, _⟩ => a.zz

end iDynTree

namespace Creo2Urdf

/-- The accessor `get(i, j)` of a `pfcMatrix3D`, for `i, j` in `0..2`. -/
def pfcMatrix3D.get {K : Type} (m : pfcMatrix3D K) (i j : Fin 3) : K :=
  match i, j with
  | ⟨0, _⟩, ⟨0, _⟩ => m.get00
  | ⟨0, _⟩, ⟨1, _⟩ => m.get01
  | ⟨0, _⟩, ⟨_ + 2, _⟩ => m.get02
  | ⟨1, _⟩, ⟨0, _⟩ => m.get10
  | ⟨1, _⟩, ⟨1, _⟩ => m.get11
  | ⟨1, _⟩, ⟨_ + 2, _⟩ => m.get12
  | ⟨_ + 2, _⟩, ⟨0, _⟩ => m.get20
  | ⟨_ + 2, _⟩, ⟨1, _⟩ => m.get21
  | ⟨_ + 2, _⟩, ⟨_ + 2, _⟩ => m.get22

/-- The same model with the origin of every coordinate system replaced
(`newOrigin` gives the new one); names and matrices are kept. -/
def pfcModel.withOrigins {K : Type} (newOrigin : pfcCoordSystem K → pfcPoint3D K)
    (model : pfcModel K) : pfcModel K :=
  { model with
    ListItems_COORD_SYS := model.ListItems_COORD_SYS.map
      (fun c => ⟨c.GetName, ⟨newOrigin c, c.GetCoordSys.GetMatrix⟩⟩) }

/-- The files of the host by path, each a sequence of byte values; `none` when
no file has that path. -/
abbrev FileSystem := String → Option (List Nat)

/-- The statements `output.seekp(pos); output.write(&byte, 1);` on the content of
a file opened for update: the byte at `pos` is overwritten, and a write at or
past the end extends the file (with zeros in between). -/
def seekp_write (content : List Nat) (pos : Nat) (byte : Nat) : List Nat :=
  if pos < content.length then content.set pos byte
  else content ++ List.replicate (pos - content.length) 0 ++ [byte]

/-- The array `placeholder` of `sanitizeSTL` without its terminator. -/
def sanitizeSTL.placeholder : List Nat :=
  ['r'.toNat, 'o'.toNat, 'b'.toNat, 'o'.toNat, 't'.toNat]

/-- The function `sanitizeSTL` (lines 137-149).  The stream is opened with
`in | out`: a missing file is not created and every write then fails. -/
def sanitizeSTL (stl : String) (fs : FileSystem) : FileSystem :=
  let n_bytes := 5
  match fs stl with
  | none => fs
  | some content =>
    let output := (List.range n_bytes).foldl
      (fun output i => seekp_write output i (sanitizeSTL.placeholder.getD i 0)) content
    fun path => if path = stl then some output else fs path

end Creo2Urdf

/-! ## Auxiliary lemmas -/

namespace Creo2Urdf

section Scans

variable {K : Type}

theorem foldl_axis_no_match (axis_name : String) (axes_list : List (pfcAxis K))
    (acc : Option (pfcAxis K))
    (hno : ∀ a ∈ axes_list, a.GetName ≠ axis_name) :
    axes_list.foldl
      (fun axis axis_elem => if axis_elem.GetName = axis_name then some axis_elem else axis)
      acc = acc := by
  induction axes_list generalizing acc with
  | nil => rfl
  | cons a rest ih =>
    have ha : a.GetName ≠ axis_name := hno a (List.mem_cons_self a rest)
    have hrest : ∀ b ∈ rest, b.GetName ≠ axis_name :=
      fun b hb => hno b (List.mem_cons_of_mem a hb)
    simp only [List.foldl_cons, if_neg ha]
    exact ih acc hrest

theorem scan_axis_no_match (axis_name : String) (axes_list : List (pfcAxis K))
    (hno : ∀ a ∈ axes_list, a.GetName ≠ axis_name) :
    getAxisFromPart.scan axis_name axes_list = none :=
  foldl_axis_no_match axis_name axes_list none hno

theorem length_ne_zero_of_ne_nil {α : Type} (l : List α) (h : l ≠ []) : ¬ l.length = 0 :=
  fun h0 => h (List.length_eq_zero.mp h0)

theorem appendsWarnings_append (before added : MessageWindow) :
    AppendsWarnings (warnings added).length before (before ++ added) := by
  refine ⟨List.prefix_append before added, ?_⟩
  simp [appended]

end Scans

variable {K : Type} [LinearOrderedField K]

theorem scan_csys_no_match (link_frame_name : String) (scale : Array3 K)
    (csys_list : List (pfcCoordSystem K))
    (hno : ∀ c ∈ csys_list, c.GetName ≠ link_frame_name) :
    getTransformFromPart.scan link_frame_name scale csys_list = none := by
  induction csys_list with
  | nil => rfl
  | cons c rest ih =>
    have hc : c.GetName ≠ link_frame_name := hno c (List.mem_cons_self c rest)
    have hrest : ∀ b ∈ rest, b.GetName ≠ link_frame_name :=
      fun b hb => hno b (List.mem_cons_of_mem c hb)
    simp only [getTransformFromPart.scan, if_pos hc]
    exact ih hrest

theorem scan_csys_match (link_frame_name : String) (scale : Array3 K)
    (csys_list : List (pfcCoordSystem K))
    (hex : ∃ c ∈ csys_list, c.GetName = link_frame_name) :
    ∃ c ∈ csys_list, c.GetName = link_frame_name ∧
      getTransformFromPart.scan link_frame_name scale csys_list
        = some (fromCreo c.GetCoordSys scale) := by
  induction csys_list with
  | nil =>
    obtain ⟨c, hc, _⟩ := hex
    cases hc
  | cons c rest ih =>
    by_cases hc : c.GetName = link_frame_name
    · refine ⟨c, List.mem_cons_self c rest, hc, ?_⟩
      simp [getTransformFromPart.scan, hc]
    · have hex2 : ∃ b ∈ rest, b.GetName = link_frame_name := by
        obtain ⟨b, hb, hbn⟩ := hex
        rcases List.mem_cons.mp hb with hbc | hbr
        · exact absurd (hbc ▸ hbn) hc
        · exact ⟨b, hbr, hbn⟩
      obtain ⟨b, hb, hbn, hscan⟩ := ih hex2
      refine ⟨b, List.mem_cons_of_mem c hb, hbn, ?_⟩
      simp only [getTransformFromPart.scan, if_pos hc]
      exact hscan

/-! ## Properties -/

/-- C1: when the AXIS catalog is non-empty and the non-empty `axis_name` matches
no axis of it, `getAxisFromPart` does not return a pair at all: the pointer
`axis` is still null when line 265 dereferences it. -/
theorem getAxisFromPart_name_not_found_faults (sqrt : K → K) (epsilon : K)
    (uninitialized : iDynTree.Transform K) (modelhdl : pfcModel K)
    (axis_name link_frame_name : String) (scale : Array3 K) (window : MessageWindow)
    (hcat : modelhdl.ListItems_AXIS ≠ [])
    (hname : axis_name ≠ "")
    (hno : ∀ a ∈ modelhdl.ListItems_AXIS, a.GetName ≠ axis_name) :
    getAxisFromPart sqrt epsilon uninitialized modelhdl axis_name link_frame_name scale window
      = Except.error Fault.nullHandle := by
  have hlen : ¬ modelhdl.ListItems_AXIS.length = 0 := length_ne_zero_of_ne_nil _ hcat
  have hemp : axis_name.isEmpty = false := by
    cases h : axis_name.isEmpty with
    | false => rfl
    | true => exact absurd ((String.isEmpty_iff axis_name).mp h) hname
  simp only [getAxisFromPart, if_neg hlen, hemp, scan_axis_no_match axis_name _ hno]
  rfl

/-- C1, at a concrete input: a part whose only axis is `A1`, asked for `A2`. -/
theorem getAxisFromPart_name_not_found_faults_witness :
    getAxisFromPart Real.sqrt (1 / 10 ^ 12) iDynTree.Transform.Identity
      (⟨"PART", [], [⟨"A1", ⟨⟨0, 0, 0⟩, ⟨0, 0, 2⟩⟩⟩]⟩ : pfcModel ℝ) "A2" "REF" ⟨1, 1, 1⟩ []
      = Except.error Fault.nullHandle :=
  getAxisFromPart_name_not_found_faults Real.sqrt (1 / 10 ^ 12) iDynTree.Transform.Identity
    ⟨"PART", [], [⟨"A1", ⟨⟨0, 0, 0⟩, ⟨0, 0, 2⟩⟩⟩]⟩ "A2" "REF" ⟨1, 1, 1⟩ []
    (by simp) (by decide) (by simp)

/-- C2 as stated fails: on a part without coordinate systems
`getTransformFromRootToChild` does not append exactly one warning. -/
theorem getTransformFromRootToChild_empty_catalog_not_one_warning :
    ¬ ((getTransformFromRootToChild iDynTree.Transform.Identity
          ⟨fun _ => ⟨⟨0, 0, 0⟩, ⟨1, 0, 0, 0, 1, 0, 0, 0, 1⟩⟩⟩
          (⟨"PART", [], []⟩ : pfcModel ℚ) "REF" ⟨1, 1, 1⟩ []).1
          = (false, iDynTree.Transform.Identity) ∧
        AppendsWarnings 1 []
          (getTransformFromRootToChild iDynTree.Transform.Identity
            ⟨fun _ => ⟨⟨0, 0, 0⟩, ⟨1, 0, 0, 0, 1, 0, 0, 0, 1⟩⟩⟩
            (⟨"PART", [], []⟩ : pfcModel ℚ) "REF" ⟨1, 1, 1⟩ []).2) := by
  rintro ⟨_, _, hcount⟩
  revert hcount
  decide

/-- C2, amended: on a model whose COORDINATE_SYSTEM catalog is empty,
`getTransformFromRootToChild` returns `(false, Identity)` for every placement,
frame name and scale, and appends exactly two warnings: the one of
`getTransformFromPart` about the empty catalog, then its own. -/
theorem getTransformFromRootToChild_empty_catalog (uninitialized : iDynTree.Transform K)
    (comp_path : pfcComponentPath K) (modelhdl : pfcModel K) (link_frame_name : String)
    (scale : Array3 K) (window : MessageWindow)
    (hcat : modelhdl.ListItems_COORD_SYS = []) :
    getTransformFromRootToChild uninitialized comp_path modelhdl link_frame_name scale window
      = ((false, iDynTree.Transform.Identity),
         window ++
          [("There are no CSYS in the part " ++ modelhdl.GetFullName, c2uLogLevel.WARN),
           ("Unable to get the transform from to the root for " ++ modelhdl.GetFullName,
            c2uLogLevel.WARN)]) ∧
    AppendsWarnings 2 window
      (getTransformFromRootToChild uninitialized comp_path modelhdl link_frame_name scale
        window).2 := by
  have heq : getTransformFromRootToChild uninitialized comp_path modelhdl link_frame_name
      scale window
      = ((false, iDynTree.Transform.Identity),
         window ++
          [("There are no CSYS in the part " ++ modelhdl.GetFullName, c2uLogLevel.WARN),
           ("Unable to get the transform from to the root for " ++ modelhdl.GetFullName,
            c2uLogLevel.WARN)]) := by
    simp [getTransformFromRootToChild, getTransformFromPart, printToMessageWindow, hcat]
  refine ⟨heq, ?_⟩
  rw [heq]
  exact appendsWarnings_append window _

/-- C2, amended, at a concrete input: a part without coordinate systems. -/
theorem getTransformFromRootToChild_empty_catalog_witness :
    getTransformFromRootToChild iDynTree.Transform.Identity
      ⟨fun _ => ⟨⟨1, 0, 0⟩, ⟨1, 0, 0, 0, 1, 0, 0, 0, 1⟩⟩⟩
      (⟨"PART", [], []⟩ : pfcModel ℚ) "REF" ⟨1, 1, 1⟩ []
      = ((false, iDynTree.Transform.Identity),
         [("There are no CSYS in the part PART", c2uLogLevel.WARN),
          ("Unable to get the transform from to the root for PART", c2uLogLevel.WARN)]) :=
  (getTransformFromRootToChild_empty_catalog iDynTree.Transform.Identity
    ⟨fun _ => ⟨⟨1, 0, 0⟩, ⟨1, 0, 0, 0, 1, 0, 0, 0, 1⟩⟩⟩
    (⟨"PART", [], []⟩ : pfcModel ℚ) "REF" ⟨1, 1, 1⟩ [] rfl).1

/-- C3 as stated fails: with the empty axis name on a part without axes,
`getAxisFromPart` does append a warning. -/
theorem getAxisFromPart_empty_name_empty_catalog_warns :
    ¬ ∃ window : MessageWindow,
        getAxisFromPart Real.sqrt (1 / 10 ^ 12) iDynTree.Transform.Identity
          (⟨"PART", [], []⟩ : pfcModel ℝ) "" "REF" ⟨1, 1, 1⟩ []
          = Except.ok ((false, iDynTree.Direction.zero), window) ∧
        AppendsWarnings 0 [] window := by
  rintro ⟨window, heq, _, hcount⟩
  simp only [getAxisFromPart, List.length_nil, if_true, printToMessageWindow,
    List.nil_append, Except.ok.injEq, Prod.mk.injEq, true_and] at heq
  subst heq
  revert hcount
  decide

/-- C3, amended: with the empty string as axis name `getAxisFromPart` returns
`(false, zero)` for every model, frame name and scale; it appends no warning
when the AXIS catalog is non-empty, and exactly the one warning about the
empty catalog when it is empty. -/
theorem getAxisFromPart_empty_name (sqrt : K → K) (epsilon : K)
    (uninitialized : iDynTree.Transform K) (modelhdl : pfcModel K)
    (link_frame_name : String) (scale : Array3 K) (window : MessageWindow) :
    getAxisFromPart sqrt epsilon uninitialized modelhdl "" link_frame_name scale window
      = Except.ok ((false, iDynTree.Direction.zero),
          if modelhdl.ListItems_AXIS.length = 0 then
            window ++ [("There is no AXIS in the part " ++ modelhdl.GetFullName,
              c2uLogLevel.WARN)]
          else window) ∧
    AppendsWarnings (if modelhdl.ListItems_AXIS.length = 0 then 1 else 0) window
      (if modelhdl.ListItems_AXIS.length = 0 then
        window ++ [("There is no AXIS in the part " ++ modelhdl.GetFullName,
          c2uLogLevel.WARN)]
      else window) := by
  by_cases hlen : modelhdl.ListItems_AXIS.length = 0
  · refine ⟨?_, ?_⟩
    · simp [getAxisFromPart, printToMessageWindow, hlen]
    · simp only [if_pos hlen]
      exact appendsWarnings_append window _
  · refine ⟨?_, ?_⟩
    · simp [getAxisFromPart, hlen, String.isEmpty]
    · simp only [if_neg hlen]
      have h := appendsWarnings_append window []
      simpa using h

/-- C4: when the COORDINATE_SYSTEM catalog is non-empty and no coordinate system
is named `link_frame_name`, `getTransformFromPart` returns `false` and prints
nothing, but the transform it returns is `H_child` as its declaration left it:
the assignment of `Identity` is made on the empty-catalog path only. -/
theorem getTransformFromPart_name_not_found (uninitialized : iDynTree.Transform K)
    (modelhdl : pfcModel K) (link_frame_name : String) (scale : Array3 K)
    (window : MessageWindow)
    (hcat : modelhdl.ListItems_COORD_SYS ≠ [])
    (hno : ∀ c ∈ modelhdl.ListItems_COORD_SYS, c.GetName ≠ link_frame_name) :
    getTransformFromPart uninitialized modelhdl link_frame_name scale window
      = ((false, uninitialized), window) := by
  have hlen : ¬ modelhdl.ListItems_COORD_SYS.length = 0 := length_ne_zero_of_ne_nil _ hcat
  simp only [getTransformFromPart, if_neg hlen,
    scan_csys_no_match link_frame_name scale _ hno]

/-- C4, at a concrete input: two coordinate systems `CSYS_A` and `CSYS_B`, asked
for `REF`, with a declaration that leaves every entry of `H_child` at zero. The
pair returned is not `(false, Identity)`. -/
theorem getTransformFromPart_name_not_found_witness :
    getTransformFromPart (⟨⟨0, 0, 0⟩, ⟨0, 0, 0, 0, 0, 0, 0, 0, 0⟩⟩ : iDynTree.Transform ℚ)
      ⟨"PART", [⟨"CSYS_A", ⟨⟨0, 0, 0⟩, ⟨1, 0, 0, 0, 1, 0, 0, 0, 1⟩⟩⟩,
                ⟨"CSYS_B", ⟨⟨5, 0, 0⟩, ⟨1, 0, 0, 0, 1, 0, 0, 0, 1⟩⟩⟩], []⟩
      "REF" ⟨1, 1, 1⟩ []
      = ((false, ⟨⟨0, 0, 0⟩, ⟨0, 0, 0, 0, 0, 0, 0, 0, 0⟩⟩), []) ∧
    (getTransformFromPart (⟨⟨0, 0, 0⟩, ⟨0, 0, 0, 0, 0, 0, 0, 0, 0⟩⟩ : iDynTree.Transform ℚ)
      ⟨"PART", [⟨"CSYS_A", ⟨⟨0, 0, 0⟩, ⟨1, 0, 0, 0, 1, 0, 0, 0, 1⟩⟩⟩,
                ⟨"CSYS_B", ⟨⟨5, 0, 0⟩, ⟨1, 0, 0, 0, 1, 0, 0, 0, 1⟩⟩⟩], []⟩
      "REF" ⟨1, 1, 1⟩ []).1
      ≠ (false, iDynTree.Transform.Identity) := by
  have h := getTransformFromPart_name_not_found
    (⟨⟨0, 0, 0⟩, ⟨0, 0, 0, 0, 0, 0, 0, 0, 0⟩⟩ : iDynTree.Transform ℚ)
    ⟨"PART", [⟨"CSYS_A", ⟨⟨0, 0, 0⟩, ⟨1, 0, 0, 0, 1, 0, 0, 0, 1⟩⟩⟩,
              ⟨"CSYS_B", ⟨⟨5, 0, 0⟩, ⟨1, 0, 0, 0, 1, 0, 0, 0, 1⟩⟩⟩], []⟩
    "REF" ⟨1, 1, 1⟩ [] (by simp) (by simp)
  refine ⟨h, ?_⟩
  rw [h]
  decide

/-- C5: when the model has a coordinate system named `link_frame_name`,
`getTransformFromPart` succeeds with some `L` and `getTransformFromRootToChild`
returns `(true, A * L)` with `A = fromCreo(placement, scale)`: rotation
`R_A · R_L`, position `R_A · p_L + p_A`; nothing is printed. -/
theorem getTransformFromRootToChild_composes (uninitialized : iDynTree.Transform K)
    (comp_path : pfcComponentPath K) (modelhdl : pfcModel K) (link_frame_name : String)
    (scale : Array3 K) (window : MessageWindow)
    (hex : ∃ c ∈ modelhdl.ListItems_COORD_SYS, c.GetName = link_frame_name) :
    (getTransformFromPart uninitialized modelhdl link_frame_name scale window).1.1 = true ∧
    getTransformFromRootToChild uninitialized comp_path modelhdl link_frame_name scale window
      = ((true,
          (fromCreo (comp_path.GetTransform true) scale).mul
            (getTransformFromPart uninitialized modelhdl link_frame_name scale window).1.2),
         window) ∧
    (getTransformFromRootToChild uninitialized comp_path modelhdl link_frame_name scale
        window).1.2.rot
      = (fromCreo (comp_path.GetTransform true) scale).rot.mul
          (getTransformFromPart uninitialized modelhdl link_frame_name scale window).1.2.rot ∧
    (getTransformFromRootToChild uninitialized comp_path modelhdl link_frame_name scale
        window).1.2.pos
      = ((fromCreo (comp_path.GetTransform true) scale).rot.mulPosition
          (getTransformFromPart uninitialized modelhdl link_frame_name scale
            window).1.2.pos).add
          (fromCreo (comp_path.GetTransform true) scale).pos := by
  have hlen : ¬ modelhdl.ListItems_COORD_SYS.length = 0 := by
    obtain ⟨c, hc, _⟩ := hex
    exact length_ne_zero_of_ne_nil _ (List.ne_nil_of_mem hc)
  obtain ⟨c, _, _, hscan⟩ := scan_csys_match link_frame_name scale _ hex
  have hpart : getTransformFromPart uninitialized modelhdl link_frame_name scale window
      = ((true, fromCreo c.GetCoordSys scale), window) := by
    simp only [getTransformFromPart, if_neg hlen, hscan]
  have hroot : getTransformFromRootToChild uninitialized comp_path modelhdl link_frame_name
      scale window
      = ((true, (fromCreo (comp_path.GetTransform true) scale).mul
          (fromCreo c.GetCoordSys scale)), window) := by
    simp [getTransformFromRootToChild, hpart]
  rw [hroot, hpart]
  exact ⟨rfl, rfl, rfl, rfl⟩

/-- C5, the scenario of the specification: placement = translation `(1,0,0)` with
identity rotation, one coordinate system `REF` at the origin with identity
rotation, scale `(1,1,1)`; the result is `(true, translation (1,0,0))`. -/
theorem getTransformFromRootToChild_composes_witness :
    getTransformFromRootToChild iDynTree.Transform.Identity
      ⟨fun _ => ⟨⟨1, 0, 0⟩, ⟨1, 0, 0, 0, 1, 0, 0, 0, 1⟩⟩⟩
      (⟨"PART", [⟨"REF", ⟨⟨0, 0, 0⟩, ⟨1, 0, 0, 0, 1, 0, 0, 0, 1⟩⟩⟩], []⟩ : pfcModel ℚ)
      "REF" ⟨1, 1, 1⟩ []
      = ((true, ⟨⟨1, 0, 0⟩, iDynTree.Rotation.Identity⟩), []) :=
  (getTransformFromRootToChild_composes iDynTree.Transform.Identity
    ⟨fun _ => ⟨⟨1, 0, 0⟩, ⟨1, 0, 0, 0, 1, 0, 0, 0, 1⟩⟩⟩
    (⟨"PART", [⟨"REF", ⟨⟨0, 0, 0⟩, ⟨1, 0, 0, 0, 1, 0, 0, 0, 1⟩⟩⟩], []⟩ : pfcModel ℚ)
    "REF" ⟨1, 1, 1⟩ [] ⟨_, List.mem_singleton.mpr rfl, rfl⟩).2.1.trans
    (by norm_num [getTransformFromPart, getTransformFromPart.scan, fromCreo,
      iDynTree.Transform.mul, iDynTree.Rotation.mul, iDynTree.Rotation.mulPosition,
      iDynTree.Position.add, iDynTree.Rotation.Identity])

/-- C6: when part-local frame resolution fails (no coordinate system of the
model is named `link_frame_name`, which includes the empty catalog),
`getTransformFromRootToChild` returns exactly `(false, Identity)`, whatever the
placement, the scale and the content of the unresolved transform, and the last
message it prints is a warning that ends with the full name of the model. -/
theorem getTransformFromRootToChild_fails_identity (uninitialized : iDynTree.Transform K)
    (comp_path : pfcComponentPath K) (modelhdl : pfcModel K) (link_frame_name : String)
    (scale : Array3 K) (window : MessageWindow)
    (hno : ∀ c ∈ modelhdl.ListItems_COORD_SYS, c.GetName ≠ link_frame_name) :
    getTransformFromRootToChild uninitialized comp_path modelhdl link_frame_name scale window
      = ((false, iDynTree.Transform.Identity),
         (if modelhdl.ListItems_COORD_SYS.length = 0 then
            window ++ [("There are no CSYS in the part " ++ modelhdl.GetFullName,
              c2uLogLevel.WARN)]
          else window) ++
          [("Unable to get the transform from to the root for " ++ modelhdl.GetFullName,
            c2uLogLevel.WARN)]) := by
  by_cases hlen : modelhdl.ListItems_COORD_SYS.length = 0
  · simp [getTransformFromRootToChild, getTransformFromPart, printToMessageWindow, hlen]
  · simp [getTransformFromRootToChild, getTransformFromPart, printToMessageWindow, hlen,
      scan_csys_no_match link_frame_name scale _ hno]

/-- C6, at a concrete input: a placed part whose only coordinate system is
`CSYS_A`, asked for `REF`, with a declaration that leaves `H_child` at zero. -/
theorem getTransformFromRootToChild_fails_identity_witness :
    getTransformFromRootToChild
      (⟨⟨0, 0, 0⟩, ⟨0, 0, 0, 0, 0, 0, 0, 0, 0⟩⟩ : iDynTree.Transform ℚ)
      ⟨fun _ => ⟨⟨1, 2, 3⟩, ⟨0, 1, 0, -1, 0, 0, 0, 0, 1⟩⟩⟩
      ⟨"PART", [⟨"CSYS_A", ⟨⟨4, 5, 6⟩, ⟨1, 0, 0, 0, 1, 0, 0, 0, 1⟩⟩⟩], []⟩
      "REF" ⟨1, 1, 1⟩ []
      = ((false, iDynTree.Transform.Identity),
         [("Unable to get the transform from to the root for PART", c2uLogLevel.WARN)]) :=
  getTransformFromRootToChild_fails_identity
    (⟨⟨0, 0, 0⟩, ⟨0, 0, 0, 0, 0, 0, 0, 0, 0⟩⟩ : iDynTree.Transform ℚ)
    ⟨fun _ => ⟨⟨1, 2, 3⟩, ⟨0, 1, 0, -1, 0, 0, 0, 0, 1⟩⟩⟩
    ⟨"PART", [⟨"CSYS_A", ⟨⟨4, 5, 6⟩, ⟨1, 0, 0, 0, 1, 0, 0, 0, 1⟩⟩⟩], []⟩
    "REF" ⟨1, 1, 1⟩ [] (by simp)

/-- C7: over the reals, with a positive tolerance, when the segment from
`p = GetEnd1` to `q = GetEnd2` has length at least `epsilon`,
`computeUnitVectorFromAxis` returns `(q − p) / ‖q − p‖`, and the Euclidean
magnitude of that vector is 1. -/
theorem computeUnitVectorFromAxis_unit (epsilon : ℝ) (axis_data : pfcLineDescriptor ℝ)
    (hpos : 0 < epsilon)
    (hlen : epsilon ≤ Real.sqrt
      ((axis_data.GetEnd2.get0 - axis_data.GetEnd1.get0) ^ 2 +
       (axis_data.GetEnd2.get1 - axis_data.GetEnd1.get1) ^ 2 +
       (axis_data.GetEnd2.get2 - axis_data.GetEnd1.get2) ^ 2)) :
    computeUnitVectorFromAxis Real.sqrt epsilon axis_data
      = ⟨(axis_data.GetEnd2.get0 - axis_data.GetEnd1.get0) / Real.sqrt
            ((axis_data.GetEnd2.get0 - axis_data.GetEnd1.get0) ^ 2 +
             (axis_data.GetEnd2.get1 - axis_data.GetEnd1.get1) ^ 2 +
             (axis_data.GetEnd2.get2 - axis_data.GetEnd1.get2) ^ 2),
         (axis_data.GetEnd2.get1 - axis_data.GetEnd1.get1) / Real.sqrt
            ((axis_data.GetEnd2.get0 - axis_data.GetEnd1.get0) ^ 2 +
             (axis_data.GetEnd2.get1 - axis_data.GetEnd1.get1) ^ 2 +
             (axis_data.GetEnd2.get2 - axis_data.GetEnd1.get2) ^ 2),
         (axis_data.GetEnd2.get2 - axis_data.GetEnd1.get2) / Real.sqrt
            ((axis_data.GetEnd2.get0 - axis_data.GetEnd1.get0) ^ 2 +
             (axis_data.GetEnd2.get1 - axis_data.GetEnd1.get1) ^ 2 +
             (axis_data.GetEnd2.get2 - axis_data.GetEnd1.get2) ^ 2)⟩ ∧
    Real.sqrt
      ((computeUnitVectorFromAxis Real.sqrt epsilon axis_data).at0 ^ 2 +
       (computeUnitVectorFromAxis Real.sqrt epsilon axis_data).at1 ^ 2 +
       (computeUnitVectorFromAxis Real.sqrt epsilon axis_data).at2 ^ 2) = 1 := by
  obtain ⟨⟨p0, p1, p2⟩, ⟨q0, q1, q2⟩⟩ := axis_data
  simp only at hlen
  have hnot : ¬ Real.sqrt ((q0 - p0) ^ 2 + (q1 - p1) ^ 2 + (q2 - p2) ^ 2) < epsilon :=
    not_lt.mpr hlen
  have heq : computeUnitVectorFromAxis Real.sqrt epsilon
      (⟨⟨p0, p1, p2⟩, ⟨q0, q1, q2⟩⟩ : pfcLineDescriptor ℝ)
      = ⟨(q0 - p0) / Real.sqrt ((q0 - p0) ^ 2 + (q1 - p1) ^ 2 + (q2 - p2) ^ 2),
         (q1 - p1) / Real.sqrt ((q0 - p0) ^ 2 + (q1 - p1) ^ 2 + (q2 - p2) ^ 2),
         (q2 - p2) / Real.sqrt ((q0 - p0) ^ 2 + (q1 - p1) ^ 2 + (q2 - p2) ^ 2)⟩ := by
    simp only [computeUnitVectorFromAxis, computeUnitVectorFromAxisWith, if_neg hnot]
  refine ⟨heq, ?_⟩
  rw [heq]
  have hn : 0 < Real.sqrt ((q0 - p0) ^ 2 + (q1 - p1) ^ 2 + (q2 - p2) ^ 2) :=
    lt_of_lt_of_le hpos hlen
  have hsq : 0 ≤ (q0 - p0) ^ 2 + (q1 - p1) ^ 2 + (q2 - p2) ^ 2 := by positivity
  have hmul : Real.sqrt ((q0 - p0) ^ 2 + (q1 - p1) ^ 2 + (q2 - p2) ^ 2) ^ 2
      = (q0 - p0) ^ 2 + (q1 - p1) ^ 2 + (q2 - p2) ^ 2 := Real.sq_sqrt hsq
  have hone : ((q0 - p0) / Real.sqrt ((q0 - p0) ^ 2 + (q1 - p1) ^ 2 + (q2 - p2) ^ 2)) ^ 2 +
      ((q1 - p1) / Real.sqrt ((q0 - p0) ^ 2 + (q1 - p1) ^ 2 + (q2 - p2) ^ 2)) ^ 2 +
      ((q2 - p2) / Real.sqrt ((q0 - p0) ^ 2 + (q1 - p1) ^ 2 + (q2 - p2) ^ 2)) ^ 2 = 1 := by
    rw [div_pow, div_pow, div_pow, ← add_div, ← add_div, hmul]
    exact div_self (ne_of_gt (by rw [← hmul]; positivity))
  show Real.sqrt _ = 1
  rw [hone, Real.sqrt_one]

/-- C7, at a concrete input: the segment from `(0,0,0)` to `(0,0,2)` with the
tolerance `10⁻¹²` gives `(0,0,1)`. -/
theorem computeUnitVectorFromAxis_unit_witness :
    computeUnitVectorFromAxis Real.sqrt (1 / 10 ^ 12)
      (⟨⟨0, 0, 0⟩, ⟨0, 0, 2⟩⟩ : pfcLineDescriptor ℝ) = ⟨0, 0, 1⟩ := by
  have hs : Real.sqrt (((2 : ℝ) - 0) ^ 2) = 2 := by
    rw [Real.sqrt_sq (by norm_num)]
    norm_num
  have h := (computeUnitVectorFromAxis_unit (1 / 10 ^ 12)
    (⟨⟨0, 0, 0⟩, ⟨0, 0, 2⟩⟩ : pfcLineDescriptor ℝ) (by norm_num)
    (by
      simp only [sub_self, ne_eq, OfNat.ofNat_ne_zero, not_false_eq_true, zero_pow, zero_add]
      rw [hs]
      norm_num)).1
  rw [h]
  simp only [sub_self, ne_eq, OfNat.ofNat_ne_zero, not_false_eq_true, zero_pow, zero_add,
    zero_div, hs]
  norm_num

/-- C8: over the reals, when the segment from `p = GetEnd1` to `q = GetEnd2` is
shorter than `epsilon`, the function returns exactly `(0,0,0)` whatever the
division operator does, so no quotient enters the result; with a positive
tolerance this covers every segment with `p = q`. -/
theorem computeUnitVectorFromAxis_degenerate (epsilon : ℝ)
    (axis_data : pfcLineDescriptor ℝ) :
    (Real.sqrt
        ((axis_data.GetEnd2.get0 - axis_data.GetEnd1.get0) ^ 2 +
         (axis_data.GetEnd2.get1 - axis_data.GetEnd1.get1) ^ 2 +
         (axis_data.GetEnd2.get2 - axis_data.GetEnd1.get2) ^ 2) < epsilon →
      computeUnitVectorFromAxis Real.sqrt epsilon axis_data = ⟨0, 0, 0⟩ ∧
      ∀ div : ℝ → ℝ → ℝ,
        computeUnitVectorFromAxisWith div Real.sqrt epsilon axis_data = ⟨0, 0, 0⟩) ∧
    (0 < epsilon → axis_data.GetEnd1 = axis_data.GetEnd2 →
      computeUnitVectorFromAxis Real.sqrt epsilon axis_data = ⟨0, 0, 0⟩ ∧
      ∀ div : ℝ → ℝ → ℝ,
        computeUnitVectorFromAxisWith div Real.sqrt epsilon axis_data = ⟨0, 0, 0⟩) := by
  have hshort : Real.sqrt
        ((axis_data.GetEnd2.get0 - axis_data.GetEnd1.get0) ^ 2 +
         (axis_data.GetEnd2.get1 - axis_data.GetEnd1.get1) ^ 2 +
         (axis_data.GetEnd2.get2 - axis_data.GetEnd1.get2) ^ 2) < epsilon →
      computeUnitVectorFromAxis Real.sqrt epsilon axis_data = ⟨0, 0, 0⟩ ∧
      ∀ div : ℝ → ℝ → ℝ,
        computeUnitVectorFromAxisWith div Real.sqrt epsilon axis_data = ⟨0, 0, 0⟩ := by
    intro h
    refine ⟨?_, fun div => ?_⟩
    · simp only [computeUnitVectorFromAxis, computeUnitVectorFromAxisWith, if_pos h]
    · simp only [computeUnitVectorFromAxisWith, if_pos h]
  refine ⟨hshort, fun hpos hsame => hshort ?_⟩
  rw [hsame]
  simpa using hpos

/-- C8, at a concrete input: both endpoints at `(3,4,5)`, tolerance `10⁻¹²`. -/
theorem computeUnitVectorFromAxis_degenerate_witness :
    computeUnitVectorFromAxis Real.sqrt (1 / 10 ^ 12)
      (⟨⟨3, 4, 5⟩, ⟨3, 4, 5⟩⟩ : pfcLineDescriptor ℝ) = ⟨0, 0, 0⟩ :=
  ((computeUnitVectorFromAxis_degenerate (1 / 10 ^ 12)
    (⟨⟨3, 4, 5⟩, ⟨3, 4, 5⟩⟩ : pfcLineDescriptor ℝ)).2 (by norm_num) rfl).1

/-- C9: for every source transform and every scale, the position built by
`fromCreo` is `(o0·s0, o1·s1, o2·s2)` and the rotation is the same for every
other scale; origin `(1000,2000,3000)` with scale `(0.001,0.001,0.001)` gives
position `(1,2,3)`. -/
theorem fromCreo_scales_position_only (creo_trf : pfcTransform3D K) (scale : Array3 K) :
    (fromCreo creo_trf scale).pos
      = ⟨creo_trf.GetOrigin.get0 * scale.at0, creo_trf.GetOrigin.get1 * scale.at1,
         creo_trf.GetOrigin.get2 * scale.at2⟩ ∧
    (∀ scale2 : Array3 K, (fromCreo creo_trf scale2).rot = (fromCreo creo_trf scale).rot) ∧
    (fromCreo (⟨⟨1000, 2000, 3000⟩, creo_trf.GetMatrix⟩ : pfcTransform3D K)
        ⟨1 / 1000, 1 / 1000, 1 / 1000⟩).pos = ⟨1, 2, 3⟩ := by
  refine ⟨rfl, fun _ => rfl, ?_⟩
  simp only [fromCreo]
  norm_num

/-- C10: `fromCreo` of the identity CAD transform (origin `(0,0,0)`, identity
matrix) with the scale `(1,1,1)` is the identity transform. -/
theorem fromCreo_identity :
    fromCreo (⟨⟨0, 0, 0⟩, ⟨1, 0, 0, 0, 1, 0, 0, 0, 1⟩⟩ : pfcTransform3D K) ⟨1, 1, 1⟩
      = iDynTree.Transform.Identity := by
  simp [fromCreo, iDynTree.Transform.Identity, iDynTree.Rotation.Identity]

/-! ## Auxiliary lemmas on the two scans -/

theorem scan_axis_last {A : Type} (axis_name : String) (before after : List (pfcAxis A))
    (axis : pfcAxis A) (hname : axis.GetName = axis_name)
    (hafter : ∀ a ∈ after, a.GetName ≠ axis_name) :
    getAxisFromPart.scan axis_name (before ++ axis :: after) = some axis := by
  simp only [getAxisFromPart.scan, List.foldl_append, List.foldl_cons, if_pos hname]
  exact foldl_axis_no_match axis_name after (some axis) hafter

theorem scan_csys_first (link_frame_name : String) (scale : Array3 K)
    (before after : List (pfcCoordSystem K)) (csys : pfcCoordSystem K)
    (hname : csys.GetName = link_frame_name)
    (hbefore : ∀ c ∈ before, c.GetName ≠ link_frame_name) :
    getTransformFromPart.scan link_frame_name scale (before ++ csys :: after)
      = some (fromCreo csys.GetCoordSys scale) := by
  induction before with
  | nil => simp [getTransformFromPart.scan, hname]
  | cons c rest ih =>
    have hc : c.GetName ≠ link_frame_name := hbefore c (List.mem_cons_self c rest)
    have hrest : ∀ b ∈ rest, b.GetName ≠ link_frame_name :=
      fun b hb => hbefore b (List.mem_cons_of_mem c hb)
    simp only [List.cons_append, getTransformFromPart.scan, if_pos hc]
    exact ih hrest

theorem isEmpty_eq_false_of_ne (name : String) (hname : name ≠ "") :
    name.isEmpty = false := by
  cases h : name.isEmpty with
  | false => rfl
  | true => exact absurd ((String.isEmpty_iff name).mp h) hname

theorem getTransformFromPart_first (uninitialized : iDynTree.Transform K)
    (modelhdl : pfcModel K) (link_frame_name : String) (scale : Array3 K)
    (window : MessageWindow) (before after : List (pfcCoordSystem K))
    (csys : pfcCoordSystem K)
    (hcat : modelhdl.ListItems_COORD_SYS = before ++ csys :: after)
    (hname : csys.GetName = link_frame_name)
    (hbefore : ∀ c ∈ before, c.GetName ≠ link_frame_name) :
    getTransformFromPart uninitialized modelhdl link_frame_name scale window
      = ((true, fromCreo csys.GetCoordSys scale), window) := by
  have hlen : ¬ (before ++ csys :: after).length = 0 := by simp
  simp only [getTransformFromPart, hcat, if_neg hlen,
    scan_csys_first link_frame_name scale before after csys hname hbefore]

theorem getAxisFromPart_found (sqrt : K → K) (epsilon : K)
    (uninitialized : iDynTree.Transform K) (modelhdl : pfcModel K)
    (axis_name link_frame_name : String) (scale : Array3 K) (window : MessageWindow)
    (before after : List (pfcAxis K)) (axis : pfcAxis K)
    (hcat : modelhdl.ListItems_AXIS = before ++ axis :: after)
    (haxis : axis.GetName = axis_name)
    (hafter : ∀ a ∈ after, a.GetName ≠ axis_name)
    (hne : axis_name ≠ "") :
    getAxisFromPart sqrt epsilon uninitialized modelhdl axis_name link_frame_name scale window
      = Except.ok
          ((true,
            iDynTree.Direction.Normalize sqrt epsilon
              ((getTransformFromPart uninitialized modelhdl link_frame_name scale
                  window).1.2.inverse.mulDirection
                ⟨(computeUnitVectorFromAxis sqrt epsilon axis.GetAxisData).at0,
                 (computeUnitVectorFromAxis sqrt epsilon axis.GetAxisData).at1,
                 (computeUnitVectorFromAxis sqrt epsilon axis.GetAxisData).at2⟩)),
           (getTransformFromPart uninitialized modelhdl link_frame_name scale window).2) := by
  have hlen : ¬ (before ++ axis :: after).length = 0 := by simp
  simp only [getAxisFromPart, hcat, if_neg hlen, isEmpty_eq_false_of_ne axis_name hne,
    scan_axis_last axis_name before after axis haxis hafter]
  rfl

theorem unit_vector_along_z :
    computeUnitVectorFromAxis Real.sqrt (1 / 10 ^ 12)
      (⟨⟨0, 0, 0⟩, ⟨0, 0, 2⟩⟩ : pfcLineDescriptor ℝ) = ⟨0, 0, 1⟩ := by
  have hs : Real.sqrt (((2 : ℝ) - 0) ^ 2) = 2 := by
    rw [Real.sqrt_sq (by norm_num)]
    norm_num
  have hnot : ¬ (2 : ℝ) < 1 / 10 ^ 12 := by norm_num
  simp only [computeUnitVectorFromAxis, computeUnitVectorFromAxisWith, sub_self, ne_eq,
    OfNat.ofNat_ne_zero, not_false_eq_true, zero_pow, zero_add, hs, if_neg hnot, zero_div]
  norm_num

theorem normalize_along_z :
    iDynTree.Direction.Normalize Real.sqrt (1 / 10 ^ 12)
      (⟨0, 0, 1⟩ : iDynTree.Direction ℝ) = ⟨0, 0, 1⟩ := by
  have hnot : ¬ Real.sqrt ((0 : ℝ) ^ 2 + 0 ^ 2 + 1 ^ 2) < 1 / 10 ^ 12 := by
    have hs : Real.sqrt ((0 : ℝ) ^ 2 + 0 ^ 2 + 1 ^ 2) = 1 := by simp
    rw [hs]
    norm_num
  simp only [iDynTree.Direction.Normalize, if_neg hnot]
  simp

theorem normalize_zero (epsilon : ℝ) :
    iDynTree.Direction.Normalize Real.sqrt epsilon (⟨0, 0, 0⟩ : iDynTree.Direction ℝ)
      = iDynTree.Direction.zero := by
  simp only [iDynTree.Direction.Normalize, iDynTree.Direction.zero]
  split <;> simp

theorem getTransformFromPart_window (uninitialized : iDynTree.Transform K)
    (modelhdl : pfcModel K) (link_frame_name : String) (scale : Array3 K)
    (window : MessageWindow) :
    (getTransformFromPart uninitialized modelhdl link_frame_name scale window).2
      = if modelhdl.ListItems_COORD_SYS.length = 0 then
          window ++ [("There are no CSYS in the part " ++ modelhdl.GetFullName,
            c2uLogLevel.WARN)]
        else window := by
  by_cases hlen : modelhdl.ListItems_COORD_SYS.length = 0
  · simp only [getTransformFromPart, if_pos hlen, printToMessageWindow]
  · simp only [getTransformFromPart, if_neg hlen]
    cases getTransformFromPart.scan link_frame_name scale modelhdl.ListItems_COORD_SYS <;> rfl

/-! ## Properties of the axis and frame resolution -/

/-- C11 as stated fails: on a part whose axis has the empty name, from `(0,0,0)` to
`(0,0,2)`, with the coordinate system `REF`, `getAxisFromPart` asked for the axis
named by the empty string does not return `true` with a direction: the guard on
the empty name returns before the catalog is scanned. -/
theorem getAxisFromPart_empty_named_axis_not_resolved :
    ¬ ∃ (d : iDynTree.Direction ℝ) (window : MessageWindow),
        getAxisFromPart Real.sqrt (1 / 10 ^ 12) iDynTree.Transform.Identity
          (⟨"PART", [⟨"REF", ⟨⟨0, 0, 0⟩, ⟨1, 0, 0, 0, 1, 0, 0, 0, 1⟩⟩⟩],
            [⟨"", ⟨⟨0, 0, 0⟩, ⟨0, 0, 2⟩⟩⟩]⟩ : pfcModel ℝ) "" "REF" ⟨1, 1, 1⟩ []
          = Except.ok ((true, d), window) := by
  rintro ⟨d, window, heq⟩
  have hlen : ¬ ([⟨"", ⟨⟨0, 0, 0⟩, ⟨0, 0, 2⟩⟩⟩] : List (pfcAxis ℝ)).length = 0 := by simp
  have hemp : ("" : String).isEmpty = true := by decide
  simp only [getAxisFromPart, if_neg hlen, hemp, if_true, Except.ok.injEq, Prod.mk.injEq,
    Bool.false_eq_true, false_and] at heq

/-- C11, amended: when the model has an axis named by the non-empty `axis_name`,
the last such axis being `axis`, and a coordinate system named
`link_frame_name`, the first such being `csys` with internal rotation `R`,
`getAxisFromPart` returns `(true, d)` with
`d = normalize(Rᵗ · computeUnitVectorFromAxis(axis))` and prints nothing; `Rᵗ` is
the matrix of `csys` as Creo indexes it, so neither the origin of the frame nor
the scale enters `d`. -/
theorem getAxisFromPart_direction (sqrt : K → K) (epsilon : K)
    (uninitialized : iDynTree.Transform K) (modelhdl : pfcModel K)
    (axis_name link_frame_name : String) (scale : Array3 K) (window : MessageWindow)
    (before after : List (pfcAxis K)) (axis : pfcAxis K)
    (cbefore cafter : List (pfcCoordSystem K)) (csys : pfcCoordSystem K)
    (hcat : modelhdl.ListItems_AXIS = before ++ axis :: after)
    (haxis : axis.GetName = axis_name)
    (hafter : ∀ a ∈ after, a.GetName ≠ axis_name)
    (hne : axis_name ≠ "")
    (hccat : modelhdl.ListItems_COORD_SYS = cbefore ++ csys :: cafter)
    (hcsys : csys.GetName = link_frame_name)
    (hcbefore : ∀ c ∈ cbefore, c.GetName ≠ link_frame_name) :
    getAxisFromPart sqrt epsilon uninitialized modelhdl axis_name link_frame_name scale window
      = Except.ok
          ((true,
            iDynTree.Direction.Normalize sqrt epsilon
              ((fromCreo csys.GetCoordSys scale).rot.inverse.mulDirection
                ⟨(computeUnitVectorFromAxis sqrt epsilon axis.GetAxisData).at0,
                 (computeUnitVectorFromAxis sqrt epsilon axis.GetAxisData).at1,
                 (computeUnitVectorFromAxis sqrt epsilon axis.GetAxisData).at2⟩)),
           window) ∧
    (fromCreo csys.GetCoordSys scale).rot.inverse
      = ⟨csys.GetCoordSys.GetMatrix.get00, csys.GetCoordSys.GetMatrix.get01,
         csys.GetCoordSys.GetMatrix.get02, csys.GetCoordSys.GetMatrix.get10,
         csys.GetCoordSys.GetMatrix.get11, csys.GetCoordSys.GetMatrix.get12,
         csys.GetCoordSys.GetMatrix.get20, csys.GetCoordSys.GetMatrix.get21,
         csys.GetCoordSys.GetMatrix.get22⟩ := by
  refine ⟨?_, rfl⟩
  rw [getAxisFromPart_found sqrt epsilon uninitialized modelhdl axis_name link_frame_name
      scale window before after axis hcat haxis hafter hne,
    getTransformFromPart_first uninitialized modelhdl link_frame_name scale window cbefore
      cafter csys hccat hcsys hcbefore]
  rfl

/-- C11, amended, the scenario of the specification: axis `A1` from `(0,0,0)` to `(0,0,2)`
and coordinate system `REF` at the origin with identity rotation give
`(true, (0,0,1))`. -/
theorem getAxisFromPart_direction_witness :
    getAxisFromPart Real.sqrt (1 / 10 ^ 12) iDynTree.Transform.Identity
      (⟨"PART", [⟨"REF", ⟨⟨0, 0, 0⟩, ⟨1, 0, 0, 0, 1, 0, 0, 0, 1⟩⟩⟩],
        [⟨"A1", ⟨⟨0, 0, 0⟩, ⟨0, 0, 2⟩⟩⟩]⟩ : pfcModel ℝ) "A1" "REF" ⟨1, 1, 1⟩ []
      = Except.ok ((true, ⟨0, 0, 1⟩), []) :=
  (getAxisFromPart_direction Real.sqrt (1 / 10 ^ 12) iDynTree.Transform.Identity
    (⟨"PART", [⟨"REF", ⟨⟨0, 0, 0⟩, ⟨1, 0, 0, 0, 1, 0, 0, 0, 1⟩⟩⟩],
      [⟨"A1", ⟨⟨0, 0, 0⟩, ⟨0, 0, 2⟩⟩⟩]⟩ : pfcModel ℝ) "A1" "REF" ⟨1, 1, 1⟩ []
    [] [] ⟨"A1", ⟨⟨0, 0, 0⟩, ⟨0, 0, 2⟩⟩⟩ [] []
    ⟨"REF", ⟨⟨0, 0, 0⟩, ⟨1, 0, 0, 0, 1, 0, 0, 0, 1⟩⟩⟩
    rfl rfl (by simp) (by decide) rfl rfl (by simp)).1.trans
    (by
      rw [unit_vector_along_z]
      simp only [fromCreo, iDynTree.Rotation.inverse, iDynTree.Rotation.mulDirection,
        mul_zero, mul_one, zero_add, add_zero]
      rw [normalize_along_z])

/-- C12 as stated fails: on a part whose axis `A1` has both endpoints at `(1,1,1)`
`getAxisFromPart` does not return `false`. -/
theorem getAxisFromPart_degenerate_not_false :
    ¬ ∃ window : MessageWindow,
        getAxisFromPart Real.sqrt (1 / 10 ^ 12) iDynTree.Transform.Identity
          (⟨"PART", [⟨"REF", ⟨⟨0, 0, 0⟩, ⟨1, 0, 0, 0, 1, 0, 0, 0, 1⟩⟩⟩],
            [⟨"A1", ⟨⟨1, 1, 1⟩, ⟨1, 1, 1⟩⟩⟩]⟩ : pfcModel ℝ) "A1" "REF" ⟨1, 1, 1⟩ []
          = Except.ok ((false, iDynTree.Direction.zero), window) := by
  rintro ⟨window, heq⟩
  rw [getAxisFromPart_found Real.sqrt (1 / 10 ^ 12) iDynTree.Transform.Identity
    (⟨"PART", [⟨"REF", ⟨⟨0, 0, 0⟩, ⟨1, 0, 0, 0, 1, 0, 0, 0, 1⟩⟩⟩],
      [⟨"A1", ⟨⟨1, 1, 1⟩, ⟨1, 1, 1⟩⟩⟩]⟩ : pfcModel ℝ) "A1" "REF" ⟨1, 1, 1⟩ []
    [] [] ⟨"A1", ⟨⟨1, 1, 1⟩, ⟨1, 1, 1⟩⟩⟩ rfl rfl (by simp) (by decide)] at heq
  simp only [Except.ok.injEq, Prod.mk.injEq, Bool.true_eq_false, false_and] at heq

/-- C12, amended: when the last axis named by the (non-empty) `axis_name` has a
defining segment shorter than `epsilon`, `getAxisFromPart` does not detect it:
it returns `true` with the zero vector, and prints no warning for the
degeneracy (only the warning of `getTransformFromPart` when the
COORDINATE_SYSTEM catalog is empty). -/
theorem getAxisFromPart_degenerate (epsilon : ℝ) (uninitialized : iDynTree.Transform ℝ)
    (modelhdl : pfcModel ℝ) (axis_name link_frame_name : String) (scale : Array3 ℝ)
    (window : MessageWindow) (before after : List (pfcAxis ℝ)) (axis : pfcAxis ℝ)
    (hcat : modelhdl.ListItems_AXIS = before ++ axis :: after)
    (haxis : axis.GetName = axis_name)
    (hafter : ∀ a ∈ after, a.GetName ≠ axis_name)
    (hne : axis_name ≠ "")
    (hdeg : Real.sqrt
      ((axis.GetAxisData.GetEnd2.get0 - axis.GetAxisData.GetEnd1.get0) ^ 2 +
       (axis.GetAxisData.GetEnd2.get1 - axis.GetAxisData.GetEnd1.get1) ^ 2 +
       (axis.GetAxisData.GetEnd2.get2 - axis.GetAxisData.GetEnd1.get2) ^ 2) < epsilon) :
    getAxisFromPart Real.sqrt epsilon uninitialized modelhdl axis_name link_frame_name scale
        window
      = Except.ok
          ((true, iDynTree.Direction.zero),
           if modelhdl.ListItems_COORD_SYS.length = 0 then
             window ++ [("There are no CSYS in the part " ++ modelhdl.GetFullName,
               c2uLogLevel.WARN)]
           else window) := by
  have hunit : computeUnitVectorFromAxis Real.sqrt epsilon axis.GetAxisData = ⟨0, 0, 0⟩ := by
    simp only [computeUnitVectorFromAxis, computeUnitVectorFromAxisWith, if_pos hdeg]
  rw [getAxisFromPart_found Real.sqrt epsilon uninitialized modelhdl axis_name
      link_frame_name scale window before after axis hcat haxis hafter hne,
    getTransformFromPart_window, hunit]
  simp only [iDynTree.Transform.mulDirection, iDynTree.Rotation.mulDirection, mul_zero,
    add_zero]
  rw [normalize_zero]

/-- C12, amended, at a concrete input: axis `A1` with both endpoints at `(1,1,1)`,
coordinate system `REF`. -/
theorem getAxisFromPart_degenerate_witness :
    getAxisFromPart Real.sqrt (1 / 10 ^ 12) iDynTree.Transform.Identity
      (⟨"PART", [⟨"REF", ⟨⟨0, 0, 0⟩, ⟨1, 0, 0, 0, 1, 0, 0, 0, 1⟩⟩⟩],
        [⟨"A1", ⟨⟨1, 1, 1⟩, ⟨1, 1, 1⟩⟩⟩]⟩ : pfcModel ℝ) "A1" "REF" ⟨1, 1, 1⟩ []
      = Except.ok ((true, iDynTree.Direction.zero), []) :=
  getAxisFromPart_degenerate (1 / 10 ^ 12) iDynTree.Transform.Identity
    (⟨"PART", [⟨"REF", ⟨⟨0, 0, 0⟩, ⟨1, 0, 0, 0, 1, 0, 0, 0, 1⟩⟩⟩],
      [⟨"A1", ⟨⟨1, 1, 1⟩, ⟨1, 1, 1⟩⟩⟩]⟩ : pfcModel ℝ) "A1" "REF" ⟨1, 1, 1⟩ []
    [] [] ⟨"A1", ⟨⟨1, 1, 1⟩, ⟨1, 1, 1⟩⟩⟩ rfl rfl (by simp) (by decide) (by norm_num)

/-- C13: when several coordinate systems are named `link_frame_name`, `csys` being
the first of them in catalog order, `getTransformFromPart` returns
`(true, fromCreo(csys, scale))` and prints nothing; the coordinate systems after
`csys`, same name or not, have no influence on the result. -/
theorem getTransformFromPart_first_match (uninitialized : iDynTree.Transform K)
    (modelhdl : pfcModel K) (link_frame_name : String) (scale : Array3 K)
    (window : MessageWindow) (before after : List (pfcCoordSystem K))
    (csys : pfcCoordSystem K)
    (hcat : modelhdl.ListItems_COORD_SYS = before ++ csys :: after)
    (hname : csys.GetName = link_frame_name)
    (hbefore : ∀ c ∈ before, c.GetName ≠ link_frame_name) :
    getTransformFromPart uninitialized modelhdl link_frame_name scale window
      = ((true, fromCreo csys.GetCoordSys scale), window) ∧
    ∀ (other : pfcModel K) (after2 : List (pfcCoordSystem K)),
      other.ListItems_COORD_SYS = before ++ csys :: after2 →
      getTransformFromPart uninitialized other link_frame_name scale window
        = ((true, fromCreo csys.GetCoordSys scale), window) :=
  ⟨getTransformFromPart_first uninitialized modelhdl link_frame_name scale window before
      after csys hcat hname hbefore,
   fun other after2 hother =>
    getTransformFromPart_first uninitialized other link_frame_name scale window before
      after2 csys hother hname hbefore⟩

/-- C13, at a concrete input: `CSYS_A`, then two coordinate systems named `REF`
with origins `(1,2,3)` and `(7,8,9)`; the first `REF` is returned. -/
theorem getTransformFromPart_first_match_witness :
    getTransformFromPart iDynTree.Transform.Identity
      (⟨"PART", [⟨"CSYS_A", ⟨⟨4, 5, 6⟩, ⟨1, 0, 0, 0, 1, 0, 0, 0, 1⟩⟩⟩,
                 ⟨"REF", ⟨⟨1, 2, 3⟩, ⟨1, 0, 0, 0, 1, 0, 0, 0, 1⟩⟩⟩,
                 ⟨"REF", ⟨⟨7, 8, 9⟩, ⟨0, 1, 0, -1, 0, 0, 0, 0, 1⟩⟩⟩], []⟩ : pfcModel ℚ)
      "REF" ⟨1, 1, 1⟩ []
      = ((true, ⟨⟨1, 2, 3⟩, iDynTree.Rotation.Identity⟩), []) :=
  (getTransformFromPart_first_match iDynTree.Transform.Identity
    (⟨"PART", [⟨"CSYS_A", ⟨⟨4, 5, 6⟩, ⟨1, 0, 0, 0, 1, 0, 0, 0, 1⟩⟩⟩,
               ⟨"REF", ⟨⟨1, 2, 3⟩, ⟨1, 0, 0, 0, 1, 0, 0, 0, 1⟩⟩⟩,
               ⟨"REF", ⟨⟨7, 8, 9⟩, ⟨0, 1, 0, -1, 0, 0, 0, 0, 1⟩⟩⟩], []⟩ : pfcModel ℚ)
    "REF" ⟨1, 1, 1⟩ []
    [⟨"CSYS_A", ⟨⟨4, 5, 6⟩, ⟨1, 0, 0, 0, 1, 0, 0, 0, 1⟩⟩⟩]
    [⟨"REF", ⟨⟨7, 8, 9⟩, ⟨0, 1, 0, -1, 0, 0, 0, 0, 1⟩⟩⟩]
    ⟨"REF", ⟨⟨1, 2, 3⟩, ⟨1, 0, 0, 0, 1, 0, 0, 0, 1⟩⟩⟩
    rfl rfl (by simp)).1.trans
    (by norm_num [fromCreo, iDynTree.Rotation.Identity])

theorem identity_inverse_mulDirection (d : iDynTree.Direction K) :
    (iDynTree.Transform.Identity : iDynTree.Transform K).inverse.mulDirection d = d := by
  simp [iDynTree.Transform.Identity, iDynTree.Rotation.Identity, iDynTree.Transform.inverse,
    iDynTree.Rotation.inverse, iDynTree.Transform.mulDirection,
    iDynTree.Rotation.mulDirection]

theorem getTransformFromPart_fails (uninitialized : iDynTree.Transform K)
    (modelhdl : pfcModel K) (link_frame_name : String) (scale : Array3 K)
    (window : MessageWindow)
    (hno : ∀ c ∈ modelhdl.ListItems_COORD_SYS, c.GetName ≠ link_frame_name) :
    (getTransformFromPart uninitialized modelhdl link_frame_name scale window).1.2
      = if modelhdl.ListItems_COORD_SYS.length = 0 then iDynTree.Transform.Identity
        else uninitialized := by
  by_cases hlen : modelhdl.ListItems_COORD_SYS.length = 0
  · simp only [getTransformFromPart, if_pos hlen]
  · simp only [getTransformFromPart, if_neg hlen,
      scan_csys_no_match link_frame_name scale _ hno]

/-- C15: with a non-empty `axis_name` whose last axis is `axis`, and no coordinate
system named `link_frame_name`, `getAxisFromPart` returns `true`; the direction
is `normalize(Hᵗ · computeUnitVectorFromAxis(axis))` where `H` is `Identity` only
when the COORDINATE_SYSTEM catalog is empty, and otherwise `H_child` of
`getTransformFromPart` as its declaration left it. -/
theorem getAxisFromPart_frame_unresolved (sqrt : K → K) (epsilon : K)
    (uninitialized : iDynTree.Transform K) (modelhdl : pfcModel K)
    (axis_name link_frame_name : String) (scale : Array3 K) (window : MessageWindow)
    (before after : List (pfcAxis K)) (axis : pfcAxis K)
    (hcat : modelhdl.ListItems_AXIS = before ++ axis :: after)
    (haxis : axis.GetName = axis_name)
    (hafter : ∀ a ∈ after, a.GetName ≠ axis_name)
    (hne : axis_name ≠ "")
    (hno : ∀ c ∈ modelhdl.ListItems_COORD_SYS, c.GetName ≠ link_frame_name) :
    getAxisFromPart sqrt epsilon uninitialized modelhdl axis_name link_frame_name scale window
      = Except.ok
          ((true,
            iDynTree.Direction.Normalize sqrt epsilon
              (if modelhdl.ListItems_COORD_SYS.length = 0 then
                (⟨(computeUnitVectorFromAxis sqrt epsilon axis.GetAxisData).at0,
                  (computeUnitVectorFromAxis sqrt epsilon axis.GetAxisData).at1,
                  (computeUnitVectorFromAxis sqrt epsilon axis.GetAxisData).at2⟩ :
                  iDynTree.Direction K)
              else
                uninitialized.inverse.mulDirection
                  ⟨(computeUnitVectorFromAxis sqrt epsilon axis.GetAxisData).at0,
                   (computeUnitVectorFromAxis sqrt epsilon axis.GetAxisData).at1,
                   (computeUnitVectorFromAxis sqrt epsilon axis.GetAxisData).at2⟩)),
           if modelhdl.ListItems_COORD_SYS.length = 0 then
             window ++ [("There are no CSYS in the part " ++ modelhdl.GetFullName,
               c2uLogLevel.WARN)]
           else window) := by
  rw [getAxisFromPart_found sqrt epsilon uninitialized modelhdl axis_name link_frame_name
      scale window before after axis hcat haxis hafter hne,
    getTransformFromPart_window,
    getTransformFromPart_fails uninitialized modelhdl link_frame_name scale window hno]
  by_cases hlen : modelhdl.ListItems_COORD_SYS.length = 0
  · simp only [if_pos hlen, identity_inverse_mulDirection]
  · simp only [if_neg hlen]

/-- C15, at a concrete input: axis `A1` from `(0,0,0)` to `(0,0,2)`, the only
coordinate system `CSYS_A`, asked for `REF`, with a declaration that leaves every
entry of `H_child` at zero: the direction returned is the zero vector and not
`(0,0,1)`, the normalized unit vector of the axis. -/
theorem getAxisFromPart_frame_unresolved_witness :
    getAxisFromPart Real.sqrt (1 / 10 ^ 12)
      (⟨⟨0, 0, 0⟩, ⟨0, 0, 0, 0, 0, 0, 0, 0, 0⟩⟩ : iDynTree.Transform ℝ)
      ⟨"PART", [⟨"CSYS_A", ⟨⟨0, 0, 0⟩, ⟨1, 0, 0, 0, 1, 0, 0, 0, 1⟩⟩⟩],
        [⟨"A1", ⟨⟨0, 0, 0⟩, ⟨0, 0, 2⟩⟩⟩]⟩ "A1" "REF" ⟨1, 1, 1⟩ []
      = Except.ok ((true, ⟨0, 0, 0⟩), []) ∧
    iDynTree.Direction.Normalize Real.sqrt (1 / 10 ^ 12)
      (⟨(computeUnitVectorFromAxis Real.sqrt (1 / 10 ^ 12)
          (⟨⟨0, 0, 0⟩, ⟨0, 0, 2⟩⟩ : pfcLineDescriptor ℝ)).at0,
        (computeUnitVectorFromAxis Real.sqrt (1 / 10 ^ 12)
          (⟨⟨0, 0, 0⟩, ⟨0, 0, 2⟩⟩ : pfcLineDescriptor ℝ)).at1,
        (computeUnitVectorFromAxis Real.sqrt (1 / 10 ^ 12)
          (⟨⟨0, 0, 0⟩, ⟨0, 0, 2⟩⟩ : pfcLineDescriptor ℝ)).at2⟩ : iDynTree.Direction ℝ)
      = ⟨0, 0, 1⟩ := by
  refine ⟨?_, ?_⟩
  · refine (getAxisFromPart_frame_unresolved Real.sqrt (1 / 10 ^ 12)
      (⟨⟨0, 0, 0⟩, ⟨0, 0, 0, 0, 0, 0, 0, 0, 0⟩⟩ : iDynTree.Transform ℝ)
      ⟨"PART", [⟨"CSYS_A", ⟨⟨0, 0, 0⟩, ⟨1, 0, 0, 0, 1, 0, 0, 0, 1⟩⟩⟩],
        [⟨"A1", ⟨⟨0, 0, 0⟩, ⟨0, 0, 2⟩⟩⟩]⟩ "A1" "REF" ⟨1, 1, 1⟩ []
      [] [] ⟨"A1", ⟨⟨0, 0, 0⟩, ⟨0, 0, 2⟩⟩⟩ rfl rfl (by simp) (by decide) (by simp)).trans ?_
    have hlen : ¬ ([⟨"CSYS_A", ⟨⟨0, 0, 0⟩, ⟨1, 0, 0, 0, 1, 0, 0, 0, 1⟩⟩⟩] :
        List (pfcCoordSystem ℝ)).length = 0 := by simp
    simp only [if_neg hlen, iDynTree.Transform.inverse, iDynTree.Transform.mulDirection,
      iDynTree.Rotation.inverse, iDynTree.Rotation.mulDirection, zero_mul, add_zero]
    rw [normalize_zero]
    rfl
  · rw [unit_vector_along_z]
    exact normalize_along_z

/-! ## Datum names, files, flags and matrix layout -/

theorem foldl_push_names {A : Type} (name : A → String) (items : List A)
    (result : List String) :
    items.foldl (fun result item => result ++ [name item]) result
      = result ++ items.map name := by
  induction items generalizing result with
  | nil => simp
  | cons item rest ih => simp [List.foldl_cons, ih]

/-- C16: `getSolidDatumNames` returns the names of the items that `ListItems(type)`
lists, one per item and in that order (same length, i-th name at index i); it
prints exactly one warning, and returns the empty sequence, when the catalog is
empty, and prints nothing otherwise. -/
theorem getSolidDatumNames_names {A : Type} (solid : pfcModel A) (type : pfcModelItemType)
    (window : MessageWindow) :
    (getSolidDatumNames solid type window).1
      = (solid.ListItems type).map pfcModelItem.GetName ∧
    (getSolidDatumNames solid type window).1.length = (solid.ListItems type).length ∧
    (∀ i : Nat, (getSolidDatumNames solid type window).1[i]?
      = ((solid.ListItems type)[i]?).map pfcModelItem.GetName) ∧
    (getSolidDatumNames solid type window).2
      = (if (solid.ListItems type).length = 0 then
          window ++ [("There is no axis in " ++ solid.GetFullName, c2uLogLevel.WARN)]
        else window) ∧
    AppendsWarnings (if (solid.ListItems type).length = 0 then 1 else 0) window
      (getSolidDatumNames solid type window).2 := by
  have hnames : (getSolidDatumNames solid type window).1
      = (solid.ListItems type).map pfcModelItem.GetName := by
    by_cases hlen : (solid.ListItems type).length = 0
    · simp only [getSolidDatumNames, if_pos hlen]
      rw [List.length_eq_zero.mp hlen]
      rfl
    · simp only [getSolidDatumNames, if_neg hlen, foldl_push_names, List.nil_append]
  have hwin : (getSolidDatumNames solid type window).2
      = (if (solid.ListItems type).length = 0 then
          window ++ [("There is no axis in " ++ solid.GetFullName, c2uLogLevel.WARN)]
        else window) := by
    by_cases hlen : (solid.ListItems type).length = 0
    · simp only [getSolidDatumNames, if_pos hlen, printToMessageWindow]
    · simp only [getSolidDatumNames, if_neg hlen]
  refine ⟨hnames, ?_, ?_, hwin, ?_⟩
  · rw [hnames, List.length_map]
  · intro i
    rw [hnames, List.getElem?_map]
  · rw [hwin]
    by_cases hlen : (solid.ListItems type).length = 0
    · simp only [if_pos hlen]
      exact appendsWarnings_append window _
    · simp only [if_neg hlen]
      simpa using appendsWarnings_append window []

theorem range_five : List.range 5 = [0, 1, 2, 3, 4] := by
  decide

/-- C17: on an existing file of at least five bytes `sanitizeSTL` leaves a file of
the same length that starts with the bytes of `robot` and is unchanged from
index 5 on; the other files are untouched. -/
theorem sanitizeSTL_header (stl : String) (fs : FileSystem) (content : List Nat)
    (hfile : fs stl = some content) (hlen : 5 ≤ content.length) :
    sanitizeSTL stl fs stl = some (sanitizeSTL.placeholder ++ content.drop 5) ∧
    (sanitizeSTL.placeholder ++ content.drop 5).length = content.length ∧
    (sanitizeSTL.placeholder ++ content.drop 5).take 5
      = ['r'.toNat, 'o'.toNat, 'b'.toNat, 'o'.toNat, 't'.toNat] ∧
    (∀ i : Nat, 5 ≤ i →
      (sanitizeSTL.placeholder ++ content.drop 5)[i]? = content[i]?) ∧
    (∀ path : String, path ≠ stl → sanitizeSTL stl fs path = fs path) := by
  match content, hlen with
  | b0 :: b1 :: b2 :: b3 :: b4 :: rest, _ =>
    refine ⟨?_, ?_, ?_, ?_, ?_⟩
    · simp [sanitizeSTL, hfile, range_five, seekp_write, sanitizeSTL.placeholder]
    · simp [sanitizeSTL.placeholder]
    · simp [sanitizeSTL.placeholder]
    · intro i hi
      obtain ⟨j, rfl⟩ : ∃ j, i = j + 5 := ⟨i - 5, by omega⟩
      simp [sanitizeSTL.placeholder]
    · intro path hpath
      simp [sanitizeSTL, hfile, hpath]

/-- C17, at a concrete input: a file of eight bytes. -/
theorem sanitizeSTL_header_witness :
    sanitizeSTL "mesh.stl"
      (fun path => if path = "mesh.stl" then some [115, 111, 108, 105, 100, 32, 7, 9]
        else none) "mesh.stl"
      = some [114, 111, 98, 111, 116, 32, 7, 9] :=
  (sanitizeSTL_header "mesh.stl"
    (fun path => if path = "mesh.stl" then some [115, 111, 108, 105, 100, 32, 7, 9]
      else none)
    [115, 111, 108, 105, 100, 32, 7, 9] (by simp) (by decide)).1.trans (by decide)

theorem scan_csys_isSome (link_frame_name : String) (scale : Array3 K)
    (csys_list : List (pfcCoordSystem K)) :
    (getTransformFromPart.scan link_frame_name scale csys_list).isSome = true ↔
      ∃ c ∈ csys_list, c.GetName = link_frame_name := by
  constructor
  · intro hsome
    by_contra hex
    have hno : ∀ c ∈ csys_list, c.GetName ≠ link_frame_name :=
      fun c hc hname => hex ⟨c, hc, hname⟩
    rw [scan_csys_no_match link_frame_name scale csys_list hno] at hsome
    cases hsome
  · intro hex
    obtain ⟨c, _, _, hscan⟩ := scan_csys_match link_frame_name scale csys_list hex
    rw [hscan]
    rfl

theorem getTransformFromPart_flag (uninitialized : iDynTree.Transform K)
    (modelhdl : pfcModel K) (link_frame_name : String) (scale : Array3 K)
    (window : MessageWindow) :
    (getTransformFromPart uninitialized modelhdl link_frame_name scale window).1.1
      = (getTransformFromPart.scan link_frame_name scale
          modelhdl.ListItems_COORD_SYS).isSome := by
  by_cases hlen : modelhdl.ListItems_COORD_SYS.length = 0
  · simp only [getTransformFromPart, if_pos hlen]
    rw [List.length_eq_zero.mp hlen]
    rfl
  · simp only [getTransformFromPart, if_neg hlen]
    cases getTransformFromPart.scan link_frame_name scale modelhdl.ListItems_COORD_SYS <;> rfl

/-- C18: for every model, frame name and scale, `getTransformFromPart` returns
`true` exactly when some coordinate system of the catalog has the name
`link_frame_name`, and `getTransformFromRootToChild` returns the same flag for
every placement. -/
theorem success_flag_iff_named (uninitialized : iDynTree.Transform K)
    (modelhdl : pfcModel K) (link_frame_name : String) (scale : Array3 K)
    (window : MessageWindow) :
    ((getTransformFromPart uninitialized modelhdl link_frame_name scale window).1.1 = true ↔
      ∃ c ∈ modelhdl.ListItems_COORD_SYS, c.GetName = link_frame_name) ∧
    ∀ comp_path : pfcComponentPath K,
      (getTransformFromRootToChild uninitialized comp_path modelhdl link_frame_name scale
        window).1.1
        = (getTransformFromPart uninitialized modelhdl link_frame_name scale window).1.1 := by
  refine ⟨?_, fun comp_path => ?_⟩
  · rw [getTransformFromPart_flag]
    exact scan_csys_isSome link_frame_name scale modelhdl.ListItems_COORD_SYS
  · simp only [getTransformFromRootToChild]
    cases (getTransformFromPart uninitialized modelhdl link_frame_name scale window).1.1 <;> rfl

/-- C19: the rotation built by `fromCreo` has at row `r`, column `c` the entry
`m(c, r)` of the Creo matrix: it is the transpose of the 3×3 block as Creo
indexes it. -/
theorem fromCreo_rotation_transposed (creo_trf : pfcTransform3D K) (scale : Array3 K)
    (r c : Fin 3) :
    (fromCreo creo_trf scale).rot.getVal r c = creo_trf.GetMatrix.get c r := by
  fin_cases r <;> fin_cases c <;> rfl

theorem scan_csys_withOrigins (link_frame_name : String) (scale scale2 : Array3 K)
    (newOrigin : pfcCoordSystem K → pfcPoint3D K) (csys_list : List (pfcCoordSystem K)) :
    (getTransformFromPart.scan link_frame_name scale2
        (csys_list.map
          (fun c => ⟨c.GetName, ⟨newOrigin c, c.GetCoordSys.GetMatrix⟩⟩))).map
        (fun H => H.rot)
      = (getTransformFromPart.scan link_frame_name scale csys_list).map (fun H => H.rot) := by
  induction csys_list with
  | nil => rfl
  | cons c rest ih =>
    by_cases hc : c.GetName = link_frame_name
    · simp [getTransformFromPart.scan, hc, fromCreo]
    · simp only [List.map_cons, getTransformFromPart.scan, ne_eq, hc, not_false_eq_true,
        if_true]
      exact ih

theorem getTransformFromPart_withOrigins (uninitialized : iDynTree.Transform K)
    (modelhdl : pfcModel K) (link_frame_name : String) (scale scale2 : Array3 K)
    (newOrigin : pfcCoordSystem K → pfcPoint3D K) (window : MessageWindow) :
    (getTransformFromPart uninitialized (modelhdl.withOrigins newOrigin) link_frame_name
        scale2 window).1.2.rot
      = (getTransformFromPart uninitialized modelhdl link_frame_name scale window).1.2.rot ∧
    (getTransformFromPart uninitialized (modelhdl.withOrigins newOrigin) link_frame_name
        scale2 window).2
      = (getTransformFromPart uninitialized modelhdl link_frame_name scale window).2 := by
  have hscan := scan_csys_withOrigins link_frame_name scale scale2 newOrigin
    modelhdl.ListItems_COORD_SYS
  by_cases hlen : modelhdl.ListItems_COORD_SYS.length = 0
  · simp [getTransformFromPart, pfcModel.withOrigins, hlen]
  · have hlen2 : ¬ (modelhdl.ListItems_COORD_SYS.map
        (fun c => (⟨c.GetName, ⟨newOrigin c, c.GetCoordSys.GetMatrix⟩⟩ :
          pfcCoordSystem K))).length = 0 := by
      rw [List.length_map]
      exact hlen
    simp only [getTransformFromPart, pfcModel.withOrigins, if_neg hlen, if_neg hlen2]
    cases h1 : getTransformFromPart.scan link_frame_name scale modelhdl.ListItems_COORD_SYS <;>
      cases h2 : getTransformFromPart.scan link_frame_name scale2
        (modelhdl.ListItems_COORD_SYS.map
          (fun c => (⟨c.GetName, ⟨newOrigin c, c.GetCoordSys.GetMatrix⟩⟩ :
            pfcCoordSystem K))) <;>
      rw [h1, h2] at hscan <;> simp at hscan <;> simp [hscan]

/-- C20: the result of `getAxisFromPart` is the same for every two scales, and the
same when the origins of the coordinate systems of the model are replaced by
any others: only the names and the matrices of the coordinate systems enter
the resolved direction. -/
theorem getAxisFromPart_scale_origin_independent (sqrt : K → K) (epsilon : K)
    (uninitialized : iDynTree.Transform K) (modelhdl : pfcModel K)
    (axis_name link_frame_name : String) (scale scale2 : Array3 K)
    (newOrigin : pfcCoordSystem K → pfcPoint3D K) (window : MessageWindow) :
    getAxisFromPart sqrt epsilon uninitialized modelhdl axis_name link_frame_name scale2
        window
      = getAxisFromPart sqrt epsilon uninitialized modelhdl axis_name link_frame_name scale
          window ∧
    getAxisFromPart sqrt epsilon uninitialized (modelhdl.withOrigins newOrigin) axis_name
        link_frame_name scale2 window
      = getAxisFromPart sqrt epsilon uninitialized modelhdl axis_name link_frame_name scale
          window := by
  have key : ∀ (g : pfcCoordSystem K → pfcPoint3D K),
      getAxisFromPart sqrt epsilon uninitialized (modelhdl.withOrigins g) axis_name
          link_frame_name scale2 window
        = getAxisFromPart sqrt epsilon uninitialized modelhdl axis_name link_frame_name scale
            window := by
    intro g
    obtain ⟨hrot, hwin⟩ := getTransformFromPart_withOrigins uninitialized modelhdl
      link_frame_name scale scale2 g window
    have haxes : (modelhdl.withOrigins g).ListItems_AXIS = modelhdl.ListItems_AXIS := rfl
    have hfull : (modelhdl.withOrigins g).GetFullName = modelhdl.GetFullName := rfl
    simp only [getAxisFromPart, haxes, hfull, iDynTree.Transform.inverse,
      iDynTree.Transform.mulDirection, hrot, hwin]
  refine ⟨?_, key newOrigin⟩
  have hsame : modelhdl.withOrigins (fun c => c.GetCoordSys.GetOrigin) = modelhdl := by
    obtain ⟨fullName, csys_list, axes_list⟩ := modelhdl
    simp only [pfcModel.withOrigins, pfcModel.mk.injEq, true_and, and_true]
    exact List.map_id csys_list
  have h := key (fun c => c.GetCoordSys.GetOrigin)
  rw [hsame] at h
  exact h

end Creo2Urdf
